import Mathlib

/-! Verification of the sts-stat-viewer run ingestion pipeline.

This file gives a shallow embedding of the Rust sources
`src-tauri/src/sts/mod.rs`, `src-tauri/src/lib.rs` and
`src-tauri/src/api/sts_handlers.rs`, and proves the specified
properties about them.

Modelling conventions:
- Rust `i32` values are modelled as `Int` together with an explicit
  wrapping conversion `wrap32` at every place the source performs an
  `as i32` cast (Rust `as` casts between integers truncate bits, i.e.
  wrap, in release builds).
- `f64` values are modelled as `Rat`; the `f as i32` cast is the
  saturating truncation toward zero that Rust defines for finite
  floats.
- serde_json documents are modelled by the inductive `Json`; a JSON
  number is either an integer or a double (stored as a rational).
- Filesystem state is an explicit record of predicates; the process
  global `CUSTOM_RUNS_PATH` cell is passed (and returned) explicitly.
- Rust `to_lowercase` / `to_ascii_lowercase` are modelled by the
  character-wise ASCII lowercase map (they agree on the ASCII range,
  which covers every keyword and identifier the code compares).
-/

namespace STS

/-- A serde_json number: stored either as an integer or as a double
(doubles modelled as rationals). -/
inductive JNum where
  | int (i : Int)
  | float (q : Rat)
deriving DecidableEq

/-- A serde_json value. -/
inductive Json where
  | null
  | bool (b : Bool)
  | num (n : JNum)
  | str (s : String)
  | arr (elems : List Json)
  | obj (fields : List (String × Json))

def i32_min : Int := -(2 ^ 31)

def i32_max : Int := 2 ^ 31 - 1

def i64_min : Int := -(2 ^ 63)

def i64_max : Int := 2 ^ 63 - 1

/-- Rust wrapping cast `as i32` on an integer value. -/
def wrap32 (i : Int) : Int := (i + 2 ^ 31) % 2 ^ 32 - 2 ^ 31

/-- Truncation of a rational toward zero (the rounding mode of Rust
float-to-int `as` casts). -/
def ratTrunc (q : Rat) : Int := q.num.tdiv q.den

/-- Rust saturating cast `f as i32` for a finite float. -/
def f64_as_i32 (q : Rat) : Int := max i32_min (min i32_max (ratTrunc q))

/-- `serde_json::Number::as_i64`: succeeds exactly on integers in the
i64 range (u64 values above `i64::MAX` fail over to the float view). -/
def numAsI64 : JNum → Option Int
  | .int i => if i64_min ≤ i ∧ i ≤ i64_max then some i else none
  | .float _ => none

/-- `serde_json::Number::as_f64`: succeeds on every number. -/
def numAsF64 : JNum → Option Rat
  | .int i => some (i : Rat)
  | .float q => some q

/-- `serde_json::Value::as_f64`. -/
def jsonAsF64 : Json → Option Rat
  | .num n => numAsF64 n
  | _ => none

/-- `serde_json::Value::as_i64`. -/
def jsonAsI64 : Json → Option Int
  | .num n => numAsI64 n
  | _ => none

/-- `deserialize_number_option` (sts/mod.rs): accepts null, an integer
(cast `as i32`, wrapping) or a float (cast `as i32`, saturating
truncation toward zero); anything else is a deserialization error. -/
def deserialize_number_option : Json → Option (Option Int)
  | .null => some none
  | .num n =>
    match numAsI64 n with
    | some i => some (some (wrap32 i))
    | none =>
      match numAsF64 n with
      | some f => some (some (f64_as_i32 f))
      | none => none
  | _ => none

/-- Look up a field of a JSON object (first occurrence of the key). -/
def getField (fields : List (String × Json)) (key : String) : Option Json :=
  (fields.find? (fun p => p.1 == key)).map (fun p => p.2)

def decodeString : Json → Option String
  | .str s => some s
  | _ => none

def decodeBool : Json → Option Bool
  | .bool b => some b
  | _ => none

/-- serde `Option<T>` deserialization of a present value: null becomes
`none`, anything else must decode as `T`. -/
def decodeOptNullable {α : Type} (dec : Json → Option α) : Json → Option (Option α)
  | .null => some none
  | v => (dec v).map some

/-- serde `Vec<T>` element-wise deserialization. -/
def decodeElems {α : Type} (dec : Json → Option α) : List Json → Option (List α)
  | [] => some []
  | v :: vs =>
    match dec v, decodeElems dec vs with
    | some a, some as => some (a :: as)
    | _, _ => none

/-- serde `Vec<T>` deserialization: the value must be an array. -/
def decodeList {α : Type} (dec : Json → Option α) : Json → Option (List α)
  | .arr xs => decodeElems dec xs
  | _ => none

/-- serde deserialization of a struct field of type `Option<T>`:
missing or null yields `none`, a present value must decode as `T`. -/
def decodeOptField {α : Type} (dec : Json → Option α)
    (fields : List (String × Json)) (key : String) : Option (Option α) :=
  match getField fields key with
  | none => some none
  | some .null => some none
  | some v => (dec v).map some

/-- serde deserialization of an `Option<i32>` struct field carrying
`#[serde(deserialize_with = "deserialize_number_option", default)]`. -/
def decodeNumField (fields : List (String × Json)) (key : String) : Option (Option Int) :=
  match getField fields key with
  | none => some none
  | some v => deserialize_number_option v

/-- `CampfireChoice` (sts/mod.rs). -/
structure CampfireChoice where
  key : Option String
deriving DecidableEq

/-- `DamageTaken` (sts/mod.rs). -/
structure DamageTaken where
  damage : Option Int
deriving DecidableEq

def decodeCampfireChoice : Json → Option CampfireChoice
  | .obj fs => (decodeOptField decodeString fs "key").map CampfireChoice.mk
  | _ => none

def decodeDamageTaken : Json → Option DamageTaken
  | .obj fs => (decodeNumField fs "damage").map DamageTaken.mk
  | _ => none

/-- `RawRunFile` (sts/mod.rs): the partial run-file structure used for
parsing. -/
structure RawRunFile where
  play_id : Option String
  floor_reached : Option Int
  victory : Option Bool
  score : Option Int
  ascension_level : Option Int
  master_deck : Option (List String)
  relics : Option (List String)
  campfire_choices : Option (List CampfireChoice)
  path_per_floor : Option (List (Option String))
  items_purged : Option (List String)
  items_purchased : Option (List String)
  potions_floor_usage : Option (List Json)
  damage_taken : Option (List DamageTaken)
  max_hp_per_floor : Option (List Json)
  killed_by : Option String

/-- serde deserialization of `RawRunFile` from a JSON document (fails
on anything that is not an object; unknown fields are ignored). -/
def decodeRawRunFile : Json → Option RawRunFile
  | .obj fs => do
    let play_id ← decodeOptField decodeString fs "play_id"
    let floor_reached ← decodeNumField fs "floor_reached"
    let victory ← decodeOptField decodeBool fs "victory"
    let score ← decodeNumField fs "score"
    let ascension_level ← decodeNumField fs "ascension_level"
    let master_deck ← decodeOptField (decodeList decodeString) fs "master_deck"
    let relics ← decodeOptField (decodeList decodeString) fs "relics"
    let campfire_choices ← decodeOptField (decodeList decodeCampfireChoice) fs "campfire_choices"
    let path_per_floor ←
      decodeOptField (decodeList (decodeOptNullable decodeString)) fs "path_per_floor"
    let items_purged ← decodeOptField (decodeList decodeString) fs "items_purged"
    let items_purchased ← decodeOptField (decodeList decodeString) fs "items_purchased"
    let potions_floor_usage ← decodeOptField (decodeList (fun v => some v)) fs "potions_floor_usage"
    let damage_taken ← decodeOptField (decodeList decodeDamageTaken) fs "damage_taken"
    let max_hp_per_floor ← decodeOptField (decodeList (fun v => some v)) fs "max_hp_per_floor"
    let killed_by ← decodeOptField decodeString fs "killed_by"
    pure { play_id, floor_reached, victory, score, ascension_level, master_deck, relics,
           campfire_choices, path_per_floor, items_purged, items_purchased,
           potions_floor_usage, damage_taken, max_hp_per_floor, killed_by }
  | _ => none

/-- `Character` (sts/mod.rs): the four playable characters. -/
inductive Character where
  | Ironclad
  | TheSilent
  | Defect
  | Watcher
deriving DecidableEq

/-- `Character::all`. -/
def Character.all : List Character :=
  [Character.Ironclad, Character.TheSilent, Character.Defect, Character.Watcher]

/-- `Character::dir_name`. -/
def Character.dir_name : Character → String
  | .Ironclad => "IRONCLAD"
  | .TheSilent => "THE_SILENT"
  | .Defect => "DEFECT"
  | .Watcher => "WATCHER"

/-- `Character::display_name`. -/
def Character.display_name : Character → String
  | .Ironclad => "Ironclad"
  | .TheSilent => "Silent"
  | .Defect => "Defect"
  | .Watcher => "Watcher"

/-- `RunMetrics` (sts/mod.rs). -/
structure RunMetrics where
  play_id : String
  character : String
  floor_reached : Int
  victory : Bool
  score : Int
  ascension_level : Int
  deck_size : Int
  attack_count : Int
  skill_count : Int
  power_count : Int
  upgraded_cards : Int
  cards_removed : Int
  relic_count : Int
  relics : List String
  master_deck : List String
  elites_killed : Int
  bosses_killed : Int
  campfires_rested : Int
  campfires_upgraded : Int
  shops_visited : Int
  cards_purchased : Int
  potions_used : Int
  total_damage_taken : Int
  max_hp_at_end : Int
  killed_by : Option String
deriving DecidableEq

/-- `CharacterStats` (sts/mod.rs); the f64 fields are modelled as
rationals. -/
structure CharacterStats where
  character : String
  display_name : String
  total_runs : Int
  wins : Int
  win_rate : Rat
  avg_score : Rat
  avg_floor : Rat
  max_floor : Int
  avg_deck_size : Rat
  avg_relics : Rat
deriving DecidableEq

/-- `ATTACK_KEYWORDS` (sts/mod.rs). -/
def ATTACK_KEYWORDS : List String :=
  [ "strike", "bash", "anger", "cleave", "carnage", "eruption", "flying", "tantrum",
    "ragnarok", "conclude", "claw", "beam", "core", "doom", "electro", "ftl",
    "hyperbeam", "meteor", "rip", "sunder", "bludgeon", "sword", "shiv", "dagger",
    "slice", "neutralize", "riddle", "skewer", "grand finale", "glass knife",
    "backstab", "predator", "all-out", "ball lightning", "cold snap", "compile",
    "barrage", "blizzard" ]

/-- `SKILL_KEYWORDS` (sts/mod.rs). -/
def SKILL_KEYWORDS : List String :=
  [ "defend", "armament", "shrug", "true grit", "vigilance", "protect", "survivor",
    "dodge", "blur", "footwork", "charge", "coolhead", "glacier", "leap", "stack",
    "turbo", "entrench", "impervious" ]

/-- Character-wise ASCII lowercasing, modelling Rust `to_lowercase` /
`to_ascii_lowercase` (they agree on ASCII input, which covers every
comparison the code performs). -/
def toLowerStr (s : String) : String := String.mk (s.data.map Char.toLower)

/-- Is `pat` a prefix of `l`? -/
def isPrefOf : List Char → List Char → Bool
  | [], _ => true
  | _ :: _, [] => false
  | a :: as, b :: bs => a == b && isPrefOf as bs

/-- Does `pat` occur contiguously inside `l`? -/
def occursIn (pat : List Char) : List Char → Bool
  | [] => pat.isEmpty
  | c :: rest => isPrefOf pat (c :: rest) || occursIn pat rest

/-- Rust `str::contains` substring test. -/
def str_contains (hay pat : String) : Bool := occursIn pat.data hay.data

/-- The attack-card predicate used by `parse_run_file`. -/
def card_is_attack (c : String) : Bool :=
  ATTACK_KEYWORDS.any (fun k => str_contains (toLowerStr c) k)

/-- The skill-card predicate used by `parse_run_file`. -/
def card_is_skill (c : String) : Bool :=
  SKILL_KEYWORDS.any (fun k => str_contains (toLowerStr c) k)

/-- Rust `eq_ignore_ascii_case` on strings. -/
def eq_ignore_ascii_case (a b : String) : Bool := toLowerStr a == toLowerStr b

/-- Rust `.len() as i32` / `.count() as i32` on a list. -/
def lenI32 {α : Type} (l : List α) : Int := wrap32 (l.length : Int)

/-- The body of `parse_run_file` (sts/mod.rs) after a successful
deserialization of `RawRunFile`; `stem` is the file's base name
(`path.file_stem`), used as the fallback run identifier. -/
def build_run_metrics (raw : RawRunFile) (character stem : String) : RunMetrics :=
  let master_deck := raw.master_deck.getD []
  let relics := raw.relics.getD []
  let campfire_choices := raw.campfire_choices.getD []
  let path_per_floor := raw.path_per_floor.getD []
  let damage_taken := raw.damage_taken.getD []
  let attack_count := lenI32 (master_deck.filter card_is_attack)
  let skill_count := lenI32 (master_deck.filter card_is_skill)
  let power_count := wrap32 (lenI32 master_deck - attack_count - skill_count)
  { play_id := raw.play_id.getD stem
    character := character
    floor_reached := raw.floor_reached.getD 0
    victory := raw.victory.getD false
    score := raw.score.getD 0
    ascension_level := raw.ascension_level.getD 0
    deck_size := lenI32 master_deck
    attack_count := attack_count
    skill_count := skill_count
    power_count := power_count
    upgraded_cards := lenI32 (master_deck.filter (fun c => c.data.contains '+'))
    cards_removed := wrap32 ((raw.items_purged.map (fun v => (v.length : Int))).getD 0)
    relic_count := lenI32 relics
    relics := relics
    master_deck := master_deck
    elites_killed := lenI32 (path_per_floor.filter (fun p => p == some "E"))
    bosses_killed := lenI32 (path_per_floor.filter (fun p => p == some "BOSS"))
    campfires_rested := lenI32 (campfire_choices.filter (fun c => c.key == some "REST"))
    campfires_upgraded := lenI32 (campfire_choices.filter (fun c => c.key == some "SMITH"))
    shops_visited := lenI32 (path_per_floor.filter (fun p => p == some "$"))
    cards_purchased := wrap32 ((raw.items_purchased.map (fun v => (v.length : Int))).getD 0)
    potions_used := wrap32 ((raw.potions_floor_usage.map (fun v => (v.length : Int))).getD 0)
    total_damage_taken := wrap32 (damage_taken.filterMap (fun d => d.damage)).sum
    max_hp_at_end :=
      ((raw.max_hp_per_floor.bind (fun v =>
          v.getLast?.bind (fun val =>
            (jsonAsF64 val).orElse (fun _ => (jsonAsI64 val).map (fun i => (i : Rat)))))).map
        f64_as_i32).getD 72
    killed_by := raw.killed_by }

/-- `parse_run_file` (sts/mod.rs), applied to an already-read JSON
document (an unreadable or syntactically malformed file never reaches
this point: the caller gets `none` from the I/O / syntax layer). -/
def parse_run_file (j : Json) (character stem : String) : Option RunMetrics :=
  (decodeRawRunFile j).map (fun raw => build_run_metrics raw character stem)

/-- The group of runs recorded for one character: `calculate_character_stats`
groups runs by exact `character` string equality (the per-key vector of
the HashMap holds the matching runs in input order). -/
def character_runs (runs : List RunMetrics) (c : Character) : List RunMetrics :=
  runs.filter (fun r => r.character == c.dir_name)

/-- One output row of `calculate_character_stats` for a character with
run group `char_runs`. -/
def character_stats_row (c : Character) (char_runs : List RunMetrics) : CharacterStats :=
  let total := lenI32 char_runs
  let wins := lenI32 (char_runs.filter (fun r => r.victory))
  { character := c.dir_name
    display_name := c.display_name
    total_runs := total
    wins := wins
    win_rate := if 0 < total then (wins : Rat) / (total : Rat) else 0
    avg_score :=
      if 0 < total then (wrap32 (char_runs.map (fun r => r.score)).sum : Rat) / (total : Rat)
      else 0
    avg_floor :=
      if 0 < total then
        (wrap32 (char_runs.map (fun r => r.floor_reached)).sum : Rat) / (total : Rat)
      else 0
    max_floor := ((char_runs.map (fun r => r.floor_reached)).max?).getD 0
    avg_deck_size :=
      if 0 < total then (wrap32 (char_runs.map (fun r => r.deck_size)).sum : Rat) / (total : Rat)
      else 0
    avg_relics :=
      if 0 < total then
        (wrap32 (char_runs.map (fun r => r.relic_count)).sum : Rat) / (total : Rat)
      else 0 }

/-- The row `calculate_character_stats` emits for one character:
present exactly when the character's run group is non-empty
(`stats_map.get` returns `Some` exactly for inserted keys). -/
def stat_for (runs : List RunMetrics) (c : Character) : Option CharacterStats :=
  if (character_runs runs c).isEmpty then none
  else some (character_stats_row c (character_runs runs c))

/-- `calculate_character_stats` (sts/mod.rs): one row per known
character with at least one run, in `Character::all` order. -/
def calculate_character_stats (runs : List RunMetrics) : List CharacterStats :=
  Character.all.filterMap (stat_for runs)

/-- Abstract filesystem state: which paths exist and which are
directories. -/
structure FileSystem where
  pathExists : String → Bool
  pathIsDir : String → Bool

/-- Rust `PathBuf::join` for the string paths used here. -/
def joinPath (a b : String) : String := a ++ "/" ++ b

def linux_runs_path (home : String) : String :=
  joinPath home ".local/share/Steam/steamapps/common/SlayTheSpire/runs"

def windows_runs_path (home : String) : String :=
  joinPath home "AppData/Local/Steam/steamapps/common/SlayTheSpire/runs"

def windows_alt_runs_path : String :=
  "C:/Program Files (x86)/Steam/steamapps/common/SlayTheSpire/runs"

/-- `get_default_runs_path` (sts/mod.rs): probes the well-known
install locations in order; note the alternative Windows path is also
only probed when a home directory is available. -/
def get_default_runs_path (fs : FileSystem) (home : Option String) : Option String :=
  match home with
  | some h =>
    if fs.pathExists (linux_runs_path h) then some (linux_runs_path h)
    else if fs.pathExists (windows_runs_path h) then some (windows_runs_path h)
    else if fs.pathExists windows_alt_runs_path then some windows_alt_runs_path
    else none
  | none => none

/-- `get_runs_path` (sts/mod.rs): custom path if set and existing,
otherwise auto-detection (a set-but-missing custom path only logs a
diagnostic and falls through). -/
def get_runs_path (fs : FileSystem) (home : Option String) (custom : Option String) :
    Option String :=
  match custom with
  | some c => if fs.pathExists c then some c else get_default_runs_path fs home
  | none => get_default_runs_path fs home

/-- `get_runs_path_info` (sts/mod.rs): `(current, is_custom,
auto_detected)`. -/
def get_runs_path_info (fs : FileSystem) (home : Option String) (custom : Option String) :
    Option String × Bool × Option String :=
  let auto_detected := get_default_runs_path fs home
  let is_custom := custom.isSome
  let current :=
    match custom with
    | some c => if fs.pathExists c then some c else none
    | none => auto_detected
  (current, is_custom, auto_detected)

/-- `RunsPathInfo` (lib.rs). -/
structure RunsPathInfo where
  current_path : Option String
  is_custom : Bool
  auto_detected_path : Option String
  path_exists : Bool
deriving DecidableEq

/-- The `get_runs_path_info` Tauri command (lib.rs). -/
def get_runs_path_info_cmd (fs : FileSystem) (home : Option String)
    (custom : Option String) : RunsPathInfo :=
  let info := get_runs_path_info fs home custom
  { current_path := info.1
    is_custom := info.2.1
    auto_detected_path := info.2.2
    path_exists := (info.1.map fs.pathExists).getD false }

/-- The `set_runs_path` Tauri command (lib.rs), with the process-wide
custom-path cell threaded explicitly: returns the new cell contents and
the command's result. -/
def set_runs_path (fs : FileSystem) (home : Option String) (custom : Option String)
    (path : String) : Option String × Except String RunsPathInfo :=
  if ¬ fs.pathExists path then
    (custom, Except.error ("Path does not exist: " ++ path))
  else if ¬ fs.pathIsDir path then
    (custom, Except.error ("Path is not a directory: " ++ path))
  else
    (some path, Except.ok (get_runs_path_info_cmd fs home (some path)))

/-- `ApiError` (api/types.rs). -/
structure ApiError where
  error : String
  code : String
  details : Option String
deriving DecidableEq

/-- `ApiError::new`. -/
def ApiError.new (error code : String) : ApiError :=
  { error := error, code := code, details := none }

/-- The `get_runs` handler (api/sts_handlers.rs), applied to the loaded
run list: the three optional filters are applied in sequence. -/
def get_runs_handler (runs : List RunMetrics) (character : Option String)
    (victories_only : Option Bool) (min_ascension : Option Int) : List RunMetrics :=
  let runs1 :=
    match character with
    | some ch => runs.filter (fun r => eq_ignore_ascii_case r.character ch)
    | none => runs
  let runs2 := if victories_only.getD false then runs1.filter (fun r => r.victory) else runs1
  match min_ascension with
  | some m => runs2.filter (fun r => decide (m ≤ r.ascension_level))
  | none => runs2

/-- The `get_character_stats` handler (api/sts_handlers.rs), applied to
the loaded run list. -/
def get_character_stats_handler (runs : List RunMetrics) (character : String) :
    Except ApiError CharacterStats :=
  match (calculate_character_stats runs).find?
      (fun s => eq_ignore_ascii_case s.character character) with
  | some s => Except.ok s
  | none => Except.error (ApiError.new "Character not found" "NOT_FOUND")

/-! ## Concrete fixtures used to instantiate the theorems -/

/-- A filesystem on which only the Linux auto-detection candidate under
the given home directory is present. -/
def fsLinuxOnly (home : String) : FileSystem :=
  { pathExists := fun p => p == linux_runs_path home
    pathIsDir := fun p => p == linux_runs_path home }

/-- A filesystem with one directory `/data/runs` and one plain file
`/data/file.txt`. -/
def fsWithDir : FileSystem :=
  { pathExists := fun p => p == "/data/runs" || p == "/data/file.txt"
    pathIsDir := fun p => p == "/data/runs" }

/-- The metrics produced for a run document with no fields at all. -/
def emptyRunMetrics : RunMetrics :=
  { play_id := "run1", character := "IRONCLAD", floor_reached := 0, victory := false,
    score := 0, ascension_level := 0, deck_size := 0, attack_count := 0, skill_count := 0,
    power_count := 0, upgraded_cards := 0, cards_removed := 0, relic_count := 0,
    relics := [], master_deck := [], elites_killed := 0, bosses_killed := 0,
    campfires_rested := 0, campfires_upgraded := 0, shops_visited := 0,
    cards_purchased := 0, potions_used := 0, total_damage_taken := 0,
    max_hp_at_end := 72, killed_by := none }

/-- The metrics produced for `{"master_deck": ["Strike", "Defend"]}`. -/
def strikeDefendMetrics : RunMetrics :=
  { emptyRunMetrics with
    deck_size := 2, attack_count := 1, skill_count := 1
    master_deck := ["Strike", "Defend"] }

/-- The metrics produced for `{"score": 3.7}`. -/
def scoreFloatMetrics : RunMetrics :=
  { emptyRunMetrics with score := 3 }

/-- The metrics produced for `{"max_hp_per_floor": ["x"]}`. -/
def badHpMetrics : RunMetrics := emptyRunMetrics

/-! ## Helper lemmas -/

theorem wrap32_eq_self {i : Int} (h1 : i32_min ≤ i) (h2 : i ≤ i32_max) : wrap32 i = i := by
  unfold wrap32
  unfold i32_min at h1
  unfold i32_max at h2
  norm_num at h1 h2 ⊢
  omega

theorem lenI32_eq_of_lt {α : Type} {l : List α} (h : l.length < 2 ^ 31) :
    lenI32 l = (l.length : Int) := by
  unfold lenI32
  apply wrap32_eq_self
  · unfold i32_min; norm_num; omega
  · unfold i32_max; norm_num; omega

theorem parse_run_file_inv {j : Json} {c stem : String} {rm : RunMetrics}
    (h : parse_run_file j c stem = some rm) :
    ∃ raw, decodeRawRunFile j = some raw ∧ build_run_metrics raw c stem = rm := by
  unfold parse_run_file at h
  exact Option.map_eq_some'.mp h

theorem decodeOptField_of_absent {α : Type} (dec : Json → Option α)
    (fs : List (String × Json)) (k : String) (h : getField fs k = none) :
    decodeOptField dec fs k = some none := by
  simp [decodeOptField, h]

theorem decodeNumField_of_absent (fs : List (String × Json)) (k : String)
    (h : getField fs k = none) : decodeNumField fs k = some none := by
  simp [decodeNumField, h]

theorem decodeRawRunFile_obj_inv {fs : List (String × Json)} {raw : RawRunFile}
    (h : decodeRawRunFile (Json.obj fs) = some raw) :
    decodeOptField decodeString fs "play_id" = some raw.play_id ∧
    decodeNumField fs "floor_reached" = some raw.floor_reached ∧
    decodeOptField decodeBool fs "victory" = some raw.victory ∧
    decodeNumField fs "score" = some raw.score ∧
    decodeNumField fs "ascension_level" = some raw.ascension_level ∧
    decodeOptField (decodeList decodeString) fs "master_deck" = some raw.master_deck ∧
    decodeOptField (decodeList decodeString) fs "relics" = some raw.relics ∧
    decodeOptField (decodeList decodeCampfireChoice) fs "campfire_choices" =
      some raw.campfire_choices ∧
    decodeOptField (decodeList (decodeOptNullable decodeString)) fs "path_per_floor" =
      some raw.path_per_floor ∧
    decodeOptField (decodeList decodeString) fs "items_purged" = some raw.items_purged ∧
    decodeOptField (decodeList decodeString) fs "items_purchased" = some raw.items_purchased ∧
    decodeOptField (decodeList (fun v => some v)) fs "potions_floor_usage" =
      some raw.potions_floor_usage ∧
    decodeOptField (decodeList decodeDamageTaken) fs "damage_taken" = some raw.damage_taken ∧
    decodeOptField (decodeList (fun v => some v)) fs "max_hp_per_floor" =
      some raw.max_hp_per_floor ∧
    decodeOptField decodeString fs "killed_by" = some raw.killed_by := by
  unfold decodeRawRunFile at h
  obtain ⟨p, hp, h⟩ := Option.bind_eq_some.mp h
  obtain ⟨f, hf, h⟩ := Option.bind_eq_some.mp h
  obtain ⟨v, hv, h⟩ := Option.bind_eq_some.mp h
  obtain ⟨sc, hsc, h⟩ := Option.bind_eq_some.mp h
  obtain ⟨al, hal, h⟩ := Option.bind_eq_some.mp h
  obtain ⟨md, hmd, h⟩ := Option.bind_eq_some.mp h
  obtain ⟨rl, hrl, h⟩ := Option.bind_eq_some.mp h
  obtain ⟨cc, hcc, h⟩ := Option.bind_eq_some.mp h
  obtain ⟨pf, hpf, h⟩ := Option.bind_eq_some.mp h
  obtain ⟨ip, hip, h⟩ := Option.bind_eq_some.mp h
  obtain ⟨ipu, hipu, h⟩ := Option.bind_eq_some.mp h
  obtain ⟨pfu, hpfu, h⟩ := Option.bind_eq_some.mp h
  obtain ⟨dt, hdt, h⟩ := Option.bind_eq_some.mp h
  obtain ⟨mh, hmh, h⟩ := Option.bind_eq_some.mp h
  obtain ⟨kb, hkb, h⟩ := Option.bind_eq_some.mp h
  injection h with h
  subst h
  exact ⟨hp, hf, hv, hsc, hal, hmd, hrl, hcc, hpf, hip, hipu, hpfu, hdt, hmh, hkb⟩

theorem decodeElems_id (l : List Json) : decodeElems (fun v => some v) l = some l := by
  induction l with
  | nil => rfl
  | cons a t ih => simp [decodeElems, ih]

theorem isPrefOf_iff (p : List Char) : ∀ l, isPrefOf p l = true ↔ ∃ t, l = p ++ t := by
  induction p with
  | nil =>
    intro l
    simp [isPrefOf]
  | cons a as ih =>
    intro l
    cases l with
    | nil =>
      simp [isPrefOf]
    | cons b bs =>
      simp only [isPrefOf, Bool.and_eq_true, beq_iff_eq, ih, List.cons_append,
        List.cons.injEq]
      constructor
      · rintro ⟨hab, t, ht⟩
        exact ⟨t, hab.symm, ht⟩
      · rintro ⟨t, hba, ht⟩
        exact ⟨hba.symm, t, ht⟩

theorem occursIn_iff (p : List Char) : ∀ l, occursIn p l = true ↔ ∃ s t, l = s ++ p ++ t := by
  intro l
  induction l with
  | nil =>
    simp only [occursIn, List.isEmpty_iff]
    constructor
    · intro hp
      exact ⟨[], [], by simp [hp]⟩
    · rintro ⟨s, t, hst⟩
      rcases List.append_eq_nil.mp hst.symm with ⟨hsp, ht⟩
      rcases List.append_eq_nil.mp hsp with ⟨hs, hp⟩
      exact hp
  | cons c rest ih =>
    simp only [occursIn, Bool.or_eq_true, isPrefOf_iff, ih]
    constructor
    · rintro (⟨t, ht⟩ | ⟨s, t, hst⟩)
      · exact ⟨[], t, by simp [ht]⟩
      · exact ⟨c :: s, t, by simp [hst]⟩
    · rintro ⟨s, t, hst⟩
      cases s with
      | nil =>
        left
        exact ⟨t, by simpa using hst⟩
      | cons x xs =>
        right
        simp only [List.cons_append, List.cons.injEq] at hst
        exact ⟨xs, t, hst.2⟩

theorem filter_isEmpty_bool {α : Type} (p : α → Bool) (l : List α) :
    (l.filter p).isEmpty = !(l.any p) := by
  induction l with
  | nil => rfl
  | cons a t ih =>
    cases hp : p a <;> simp [List.filter_cons, List.any_cons, hp, ih]

theorem filter_fuse2 {α : Type} (p q : α → Bool) (l : List α) :
    (l.filter p).filter q = l.filter (fun a => p a && q a) := by
  induction l with
  | nil => rfl
  | cons a t ih =>
    cases hp : p a <;> cases hq : q a <;> simp [List.filter_cons, hp, hq, ih]

theorem filter_fuse3 {α : Type} (p q w : α → Bool) (l : List α) :
    ((l.filter p).filter q).filter w = l.filter (fun a => p a && q a && w a) := by
  rw [filter_fuse2, filter_fuse2]
  simp only [← Bool.and_assoc]

theorem mem_all (ch : Character) : ch ∈ Character.all := by
  cases ch <;> decide

theorem toLower_dir_beq (c ch : Character) :
    (toLowerStr c.dir_name == toLowerStr ch.dir_name) = decide (c = ch) := by
  cases c <;> cases ch <;> decide

theorem eqIC_symm (a b : String) : eq_ignore_ascii_case a b = eq_ignore_ascii_case b a := by
  unfold eq_ignore_ascii_case
  apply Bool.eq_iff_iff.mpr
  simp only [beq_iff_eq]
  exact eq_comm

theorem stat_for_character {runs : List RunMetrics} {c : Character} {s : CharacterStats}
    (h : stat_for runs c = some s) : s.character = c.dir_name := by
  unfold stat_for at h
  split at h
  · cases h
  · injection h with h
    subst h
    rfl

theorem stats_characters (runs : List RunMetrics) (cs : List Character) :
    (cs.filterMap (stat_for runs)).map (fun s => s.character) =
      (cs.filter (fun c => !(character_runs runs c).isEmpty)).map Character.dir_name := by
  induction cs with
  | nil => rfl
  | cons c cs ih =>
    by_cases h : (character_runs runs c).isEmpty = true
    · simp [List.filterMap_cons, List.filter_cons, stat_for, h, ih]
    · simp only [Bool.not_eq_true] at h
      simp [List.filterMap_cons, List.filter_cons, stat_for, h, ih, character_stats_row]

theorem find_stats_none (runs : List RunMetrics) (name : String) (ch : Character)
    (hname : toLowerStr name = toLowerStr ch.dir_name)
    (hempty : (character_runs runs ch).isEmpty = true) (cs : List Character) :
    (cs.filterMap (stat_for runs)).find? (fun s => eq_ignore_ascii_case s.character name) =
      none := by
  induction cs with
  | nil => rfl
  | cons c cs ih =>
    cases hc : stat_for runs c with
    | none => simpa [List.filterMap_cons, hc] using ih
    | some s =>
      simp only [List.filterMap_cons, hc]
      have hpred : eq_ignore_ascii_case s.character name = false := by
        unfold eq_ignore_ascii_case
        rw [stat_for_character hc, hname, toLower_dir_beq]
        have hne : c ≠ ch := by
          intro he
          subst he
          unfold stat_for at hc
          rw [if_pos hempty] at hc
          cases hc
        simp [hne]
      rw [List.find?_cons_of_neg _ (by simp [hpred])]
      exact ih

theorem find_stats_found (runs : List RunMetrics) (name : String) (ch : Character)
    (hname : toLowerStr name = toLowerStr ch.dir_name)
    (hfull : (character_runs runs ch).isEmpty = false) (cs : List Character)
    (hmem : ch ∈ cs) :
    ∃ s, (cs.filterMap (stat_for runs)).find?
        (fun s => eq_ignore_ascii_case s.character name) = some s := by
  induction cs with
  | nil => cases hmem
  | cons c cs ih =>
    by_cases hce : c = ch
    · subst hce
      have hc : stat_for runs c = some (character_stats_row c (character_runs runs c)) := by
        unfold stat_for
        rw [if_neg (by simp [hfull])]
      simp only [List.filterMap_cons, hc]
      refine ⟨_, List.find?_cons_of_pos _ ?_⟩
      show eq_ignore_ascii_case (character_stats_row c (character_runs runs c)).character
        name = true
      have hrow : (character_stats_row c (character_runs runs c)).character = c.dir_name := rfl
      unfold eq_ignore_ascii_case
      rw [hrow, hname]
      exact beq_self_eq_true _
    · have hmem' : ch ∈ cs := by
        rcases List.mem_cons.mp hmem with he | hm
        · exact absurd he.symm hce
        · exact hm
      cases hc : stat_for runs c with
      | none => simpa [List.filterMap_cons, hc] using ih hmem'
      | some s =>
        simp only [List.filterMap_cons, hc]
        have hpred : eq_ignore_ascii_case s.character name = false := by
          unfold eq_ignore_ascii_case
          rw [stat_for_character hc, hname, toLower_dir_beq]
          simp [hce]
        rw [List.find?_cons_of_neg _ (by simp [hpred])]
        exact ih hmem'

/-! ## Claim theorems -/

/-- Claim C2: for every run file the parser accepts, the returned
metrics satisfy `attack_count + skill_count + power_count = deck_size`
(power_count being derived as the remainder); the size hypothesis rules
out only decks too large for the `i32` casts of the source. -/
theorem parse_deck_invariant (j : Json) (c stem : String) (rm : RunMetrics)
    (h : parse_run_file j c stem = some rm)
    (hlen : rm.master_deck.length < 2 ^ 31) :
    rm.attack_count + rm.skill_count + rm.power_count = rm.deck_size := by
  obtain ⟨raw, hdec, hb⟩ := parse_run_file_inv h
  subst hb
  simp only [build_run_metrics] at hlen ⊢
  generalize raw.master_deck.getD [] = l at hlen ⊢
  have h1 := List.length_filter_le card_is_attack l
  have h2 := List.length_filter_le card_is_skill l
  rw [lenI32_eq_of_lt hlen, lenI32_eq_of_lt (by omega : (l.filter card_is_attack).length < 2 ^ 31),
      lenI32_eq_of_lt (by omega : (l.filter card_is_skill).length < 2 ^ 31),
      wrap32_eq_self (by unfold i32_min; push_cast; omega) (by unfold i32_max; push_cast; omega)]
  omega

/-- Witness for C2 at the document `{"master_deck": ["Strike", "Defend"]}`. -/
theorem parse_deck_invariant_witness :
    parse_run_file (Json.obj [("master_deck", Json.arr [Json.str "Strike", Json.str "Defend"])])
        "IRONCLAD" "run1" = some strikeDefendMetrics ∧
    strikeDefendMetrics.attack_count + strikeDefendMetrics.skill_count +
      strikeDefendMetrics.power_count = strikeDefendMetrics.deck_size := by
  have h : parse_run_file
      (Json.obj [("master_deck", Json.arr [Json.str "Strike", Json.str "Defend"])])
      "IRONCLAD" "run1" = some strikeDefendMetrics := by decide
  exact ⟨h, parse_deck_invariant _ _ _ _ h (by decide)⟩

/-- Claim C4: every scalar field absent from a well-formed run document
takes its documented default in the parsed metrics: floor_reached 0,
victory false, score 0, ascension_level 0, empty deck and relic lists
(with zero counts), cards_removed 0, cards_purchased 0, killed_by
absent, and max_hp_at_end 72 when no floor-HP history is present. -/
theorem parse_defaults (fields : List (String × Json)) (c stem : String) (rm : RunMetrics)
    (h : parse_run_file (Json.obj fields) c stem = some rm) :
    (getField fields "floor_reached" = none → rm.floor_reached = 0) ∧
    (getField fields "victory" = none → rm.victory = false) ∧
    (getField fields "score" = none → rm.score = 0) ∧
    (getField fields "ascension_level" = none → rm.ascension_level = 0) ∧
    (getField fields "master_deck" = none → rm.master_deck = [] ∧ rm.deck_size = 0) ∧
    (getField fields "relics" = none → rm.relics = [] ∧ rm.relic_count = 0) ∧
    (getField fields "items_purged" = none → rm.cards_removed = 0) ∧
    (getField fields "items_purchased" = none → rm.cards_purchased = 0) ∧
    (getField fields "killed_by" = none → rm.killed_by = none) ∧
    (getField fields "max_hp_per_floor" = none → rm.max_hp_at_end = 72) := by
  obtain ⟨raw, hdec, hb⟩ := parse_run_file_inv h
  subst hb
  obtain ⟨hp, hf, hv, hsc, hal, hmd, hrl, hcc, hpf, hip, hipu, hpfu, hdt, hmh, hkb⟩ :=
    decodeRawRunFile_obj_inv hdec
  refine ⟨?_, ?_, ?_, ?_, ?_, ?_, ?_, ?_, ?_, ?_⟩
  · intro habs
    rw [decodeNumField_of_absent _ _ habs] at hf
    injection hf with hf
    simp [build_run_metrics, ← hf]
  · intro habs
    rw [decodeOptField_of_absent _ _ _ habs] at hv
    injection hv with hv
    simp [build_run_metrics, ← hv]
  · intro habs
    rw [decodeNumField_of_absent _ _ habs] at hsc
    injection hsc with hsc
    simp [build_run_metrics, ← hsc]
  · intro habs
    rw [decodeNumField_of_absent _ _ habs] at hal
    injection hal with hal
    simp [build_run_metrics, ← hal]
  · intro habs
    rw [decodeOptField_of_absent _ _ _ habs] at hmd
    injection hmd with hmd
    constructor
    · simp [build_run_metrics, ← hmd]
    · simp [build_run_metrics, ← hmd, lenI32, wrap32]
  · intro habs
    rw [decodeOptField_of_absent _ _ _ habs] at hrl
    injection hrl with hrl
    constructor
    · simp [build_run_metrics, ← hrl]
    · simp [build_run_metrics, ← hrl, lenI32, wrap32]
  · intro habs
    rw [decodeOptField_of_absent _ _ _ habs] at hip
    injection hip with hip
    simp [build_run_metrics, ← hip, wrap32]
  · intro habs
    rw [decodeOptField_of_absent _ _ _ habs] at hipu
    injection hipu with hipu
    simp [build_run_metrics, ← hipu, wrap32]
  · intro habs
    rw [decodeOptField_of_absent _ _ _ habs] at hkb
    injection hkb with hkb
    simp [build_run_metrics, ← hkb]
  · intro habs
    rw [decodeOptField_of_absent _ _ _ habs] at hmh
    injection hmh with hmh
    simp [build_run_metrics, ← hmh]

/-- Witness for C4 at the empty run document. -/
theorem parse_defaults_witness :
    parse_run_file (Json.obj []) "IRONCLAD" "run1" = some emptyRunMetrics ∧
    emptyRunMetrics.floor_reached = 0 ∧ emptyRunMetrics.victory = false ∧
    emptyRunMetrics.score = 0 ∧ emptyRunMetrics.ascension_level = 0 ∧
    emptyRunMetrics.master_deck = [] ∧ emptyRunMetrics.deck_size = 0 ∧
    emptyRunMetrics.relics = [] ∧ emptyRunMetrics.relic_count = 0 ∧
    emptyRunMetrics.cards_removed = 0 ∧ emptyRunMetrics.cards_purchased = 0 ∧
    emptyRunMetrics.killed_by = none ∧ emptyRunMetrics.max_hp_at_end = 72 := by
  have h : parse_run_file (Json.obj []) "IRONCLAD" "run1" = some emptyRunMetrics := by decide
  obtain ⟨d1, d2, d3, d4, d5, d6, d7, d8, d9, d10⟩ :=
    parse_defaults [] "IRONCLAD" "run1" emptyRunMetrics h
  exact ⟨h, d1 rfl, d2 rfl, d3 rfl, d4 rfl, (d5 rfl).1, (d5 rfl).2, (d6 rfl).1, (d6 rfl).2,
    d7 rfl, d8 rfl, d9 rfl, d10 rfl⟩

/-- Claim C5: a numeric field may be an integer or a float; integers in
the i32 range are taken as they are, floats are coerced by truncation
toward zero (saturating at the i32 bounds); in particular a source
score of 3.7 parses to 3. -/
theorem number_coercion :
    (∀ i : Int, i64_min ≤ i → i ≤ i64_max →
      deserialize_number_option (Json.num (JNum.int i)) = some (some (wrap32 i))) ∧
    (∀ q : Rat,
      deserialize_number_option (Json.num (JNum.float q)) = some (some (f64_as_i32 q))) ∧
    (∀ q : Rat, i32_min ≤ ratTrunc q → ratTrunc q ≤ i32_max → f64_as_i32 q = ratTrunc q) ∧
    (∀ (fields : List (String × Json)) (c stem : String) (rm : RunMetrics),
      parse_run_file (Json.obj fields) c stem = some rm →
      getField fields "score" = some (Json.num (JNum.float (mkRat 37 10))) → rm.score = 3) := by
  refine ⟨?_, ?_, ?_, ?_⟩
  · intro i h1 h2
    simp [deserialize_number_option, numAsI64, h1, h2]
  · intro q
    rfl
  · intro q h1 h2
    unfold f64_as_i32
    unfold i32_min at h1 ⊢
    unfold i32_max at h2 ⊢
    norm_num at h1 h2 ⊢
    omega
  · intro fields c stem rm h hq
    obtain ⟨raw, hdec, hb⟩ := parse_run_file_inv h
    subst hb
    obtain ⟨_, _, _, hsc, _, _, _, _, _, _, _, _, _, _, _⟩ := decodeRawRunFile_obj_inv hdec
    have h1 : decodeNumField fields "score" = some (some 3) := by
      unfold decodeNumField
      rw [hq]
      decide
    rw [h1] at hsc
    injection hsc with hsc
    simp [build_run_metrics, ← hsc]

/-- Witness for C5 at concrete numbers: an integer score of 5, a float
score of 3.7 (truncating to 3, not rounding to 4) and a float -3.7
(truncating toward zero to -3). -/
theorem number_coercion_witness :
    deserialize_number_option (Json.num (JNum.int 5)) = some (some 5) ∧
    deserialize_number_option (Json.num (JNum.float (mkRat 37 10))) = some (some 3) ∧
    f64_as_i32 (mkRat (-37) 10) = -3 ∧
    parse_run_file (Json.obj [("score", Json.num (JNum.float (mkRat 37 10)))])
        "IRONCLAD" "run1" = some scoreFloatMetrics ∧
    scoreFloatMetrics.score = 3 := by
  have hp : parse_run_file (Json.obj [("score", Json.num (JNum.float (mkRat 37 10)))])
      "IRONCLAD" "run1" = some scoreFloatMetrics := by decide
  refine ⟨?_, ?_, ?_, hp, ?_⟩
  · rw [number_coercion.1 5 (by decide) (by decide)]
    decide
  · rw [number_coercion.2.1 (mkRat 37 10)]
    decide
  · rw [number_coercion.2.2.1 (mkRat (-37) 10) (by decide) (by decide)]
    decide
  · exact number_coercion.2.2.2 _ "IRONCLAD" "run1" _ hp rfl

/-- Claim C10: if the per-floor HP list is present and non-empty but
its last entry is not representable as a number, parsing still
succeeds and max_hp_at_end falls back to 72. -/
theorem parse_bad_last_hp (fields : List (String × Json)) (c stem : String) (rm : RunMetrics)
    (l : List Json) (v : Json)
    (h : parse_run_file (Json.obj fields) c stem = some rm)
    (hf : getField fields "max_hp_per_floor" = some (Json.arr l))
    (hl : l.getLast? = some v)
    (h1 : jsonAsF64 v = none) (h2 : jsonAsI64 v = none) :
    rm.max_hp_at_end = 72 := by
  obtain ⟨raw, hdec, hb⟩ := parse_run_file_inv h
  subst hb
  obtain ⟨_, _, _, _, _, _, _, _, _, _, _, _, _, hmh, _⟩ := decodeRawRunFile_obj_inv hdec
  have hfull : decodeOptField (decodeList (fun v => some v)) fields "max_hp_per_floor" =
      some (some l) := by
    unfold decodeOptField
    rw [hf]
    simp [decodeList, decodeElems_id]
  rw [hfull] at hmh
  injection hmh with hmh
  simp [build_run_metrics, ← hmh, hl, h1, h2, Option.orElse]

/-- Witness for C10 at the document `{"max_hp_per_floor": ["x"]}`. -/
theorem parse_bad_last_hp_witness :
    parse_run_file (Json.obj [("max_hp_per_floor", Json.arr [Json.str "x"])])
        "IRONCLAD" "run1" = some badHpMetrics ∧
    badHpMetrics.max_hp_at_end = 72 := by
  have h : parse_run_file (Json.obj [("max_hp_per_floor", Json.arr [Json.str "x"])])
      "IRONCLAD" "run1" = some badHpMetrics := by decide
  exact ⟨h, parse_bad_last_hp _ "IRONCLAD" "run1" badHpMetrics [Json.str "x"] (Json.str "x")
    h rfl rfl rfl rfl⟩

/-- Claim C6: card classification is deterministic and depends only on
the lowercased name: a card counts as Attack exactly when some attack
keyword occurs as a substring of the lowercased name, as Skill exactly
when some skill keyword occurs, and "Strike" and "strike+" both count
as Attack. -/
theorem classify_cards :
    (∀ s t : String, toLowerStr s = toLowerStr t →
      card_is_attack s = card_is_attack t ∧ card_is_skill s = card_is_skill t) ∧
    (∀ s : String, card_is_attack s = true ↔
      ∃ k ∈ ATTACK_KEYWORDS, ∃ pre post, (toLowerStr s).data = pre ++ k.data ++ post) ∧
    (∀ s : String, card_is_skill s = true ↔
      ∃ k ∈ SKILL_KEYWORDS, ∃ pre post, (toLowerStr s).data = pre ++ k.data ++ post) ∧
    card_is_attack "Strike" = true ∧ card_is_attack "strike+" = true := by
  refine ⟨?_, ?_, ?_, by decide, by decide⟩
  · intro s t h
    unfold card_is_attack card_is_skill
    rw [h]
    exact ⟨rfl, rfl⟩
  · intro s
    simp [card_is_attack, List.any_eq_true, str_contains, occursIn_iff]
  · intro s
    simp [card_is_skill, List.any_eq_true, str_contains, occursIn_iff]

/-- Witness for C6: "STRIKE" and "Strike" have the same lowercase form
and classify identically, and "Strike" is an Attack. -/
theorem classify_cards_witness :
    toLowerStr "STRIKE" = toLowerStr "Strike" ∧
    card_is_attack "STRIKE" = card_is_attack "Strike" ∧
    card_is_skill "STRIKE" = card_is_skill "Strike" ∧
    card_is_attack "Strike" = true := by
  have h : toLowerStr "STRIKE" = toLowerStr "Strike" := by decide
  have h2 := classify_cards.1 "STRIKE" "Strike" h
  exact ⟨h, h2.1, h2.2, classify_cards.2.2.2.1⟩

/-- Claim C3: the aggregator emits exactly one row per known character
with at least one run, in the fixed `Character::all` order, and never
more than 4 rows; which rows appear depends only on which characters
have runs, not on input order. -/
theorem aggregate_rows (runs : List RunMetrics) :
    (calculate_character_stats runs).map (fun s => s.character) =
      (Character.all.filter (fun c => runs.any (fun r => r.character == c.dir_name))).map
        Character.dir_name ∧
    (calculate_character_stats runs).length ≤ 4 := by
  constructor
  · rw [calculate_character_stats, stats_characters]
    congr 1
    apply List.filter_congr
    intro c _
    unfold character_runs
    rw [filter_isEmpty_bool]
    simp
  · exact le_trans (List.length_filterMap_le _ _) (by decide)

/-- Claim C7: for a character name that matches one of the four known
characters case-insensitively, the by-character stats query fails with
"Character not found" when that character has zero runs, and succeeds
exactly when at least one run exists for that identifier. -/
theorem character_stats_not_found (runs : List RunMetrics) (ch : Character) (name : String)
    (hname : eq_ignore_ascii_case name ch.dir_name = true) :
    (runs.any (fun r => r.character == ch.dir_name) = false →
      get_character_stats_handler runs name =
        Except.error (ApiError.new "Character not found" "NOT_FOUND")) ∧
    ((get_character_stats_handler runs name).isOk = true ↔
      runs.any (fun r => r.character == ch.dir_name) = true) := by
  have hname' : toLowerStr name = toLowerStr ch.dir_name := by
    unfold eq_ignore_ascii_case at hname
    exact eq_of_beq hname
  have herr : runs.any (fun r => r.character == ch.dir_name) = false →
      get_character_stats_handler runs name =
        Except.error (ApiError.new "Character not found" "NOT_FOUND") := by
    intro hno
    have hempty : (character_runs runs ch).isEmpty = true := by
      unfold character_runs
      rw [filter_isEmpty_bool, hno]
      rfl
    unfold get_character_stats_handler calculate_character_stats
    rw [find_stats_none runs name ch hname' hempty Character.all]
  have hfound : runs.any (fun r => r.character == ch.dir_name) = true →
      ∃ s, get_character_stats_handler runs name = Except.ok s := by
    intro hany
    have hfull : (character_runs runs ch).isEmpty = false := by
      unfold character_runs
      rw [filter_isEmpty_bool, hany]
      rfl
    obtain ⟨s, hs⟩ := find_stats_found runs name ch hname' hfull Character.all (mem_all ch)
    refine ⟨s, ?_⟩
    unfold get_character_stats_handler calculate_character_stats
    rw [hs]
  refine ⟨herr, ?_, ?_⟩
  · intro hisok
    cases hany : runs.any (fun r => r.character == ch.dir_name) with
    | true => rfl
    | false =>
      rw [herr hany] at hisok
      cases hisok
  · intro hany
    obtain ⟨s, hs⟩ := hfound hany
    rw [hs]
    rfl

/-- Witness for C7: the lowercase name "ironclad" matches IRONCLAD and
on an empty run list the query reports "Character not found". -/
theorem character_stats_not_found_witness :
    eq_ignore_ascii_case "ironclad" Character.Ironclad.dir_name = true ∧
    get_character_stats_handler ([] : List RunMetrics) "ironclad" =
      Except.error (ApiError.new "Character not found" "NOT_FOUND") ∧
    ((get_character_stats_handler ([] : List RunMetrics) "ironclad").isOk = true ↔
      List.any ([] : List RunMetrics)
        (fun r => r.character == Character.Ironclad.dir_name) = true) := by
  have h : eq_ignore_ascii_case "ironclad" Character.Ironclad.dir_name = true := by decide
  have h2 := character_stats_not_found [] Character.Ironclad "ironclad" h
  exact ⟨h, h2.1 rfl, h2.2⟩

/-- Claim C1, settled against the code at the failing input: with a
custom path configured but missing from disk while the Linux
auto-detection candidate exists, `get_runs_path_info` reports
`current = none` instead of the auto-detected path the specification
(and the `RunsPathInfo.current_path` doc comment in lib.rs) describes,
even though `get_runs_path` — the resolver actually used for loading —
does fall back to the auto-detected path on the same state. -/
theorem runs_path_info_custom_missing :
    get_runs_path_info (fsLinuxOnly "/home/user") (some "/home/user") (some "/custom/runs") =
      (none, true, some (linux_runs_path "/home/user")) ∧
    get_runs_path (fsLinuxOnly "/home/user") (some "/home/user") (some "/custom/runs") =
      some (linux_runs_path "/home/user") := by
  exact ⟨by decide, by decide⟩

/-- Claim C8: setting the custom runs path to a missing path or to a
non-directory fails with a descriptive error and leaves the configured
custom path unchanged; setting it to an existing directory succeeds
and the configured custom path becomes that path. -/
theorem set_runs_path_spec (fs : FileSystem) (home : Option String) (custom : Option String)
    (path : String) :
    (fs.pathExists path = false →
      set_runs_path fs home custom path =
        (custom, Except.error ("Path does not exist: " ++ path))) ∧
    (fs.pathExists path = true → fs.pathIsDir path = false →
      set_runs_path fs home custom path =
        (custom, Except.error ("Path is not a directory: " ++ path))) ∧
    (fs.pathExists path = true → fs.pathIsDir path = true →
      (set_runs_path fs home custom path).1 = some path ∧
      (set_runs_path fs home custom path).2 =
        Except.ok (get_runs_path_info_cmd fs home (some path))) := by
  refine ⟨?_, ?_, ?_⟩
  · intro h
    simp [set_runs_path, h]
  · intro h1 h2
    simp [set_runs_path, h1, h2]
  · intro h1 h2
    constructor <;> simp [set_runs_path, h1, h2]

/-- Witness for C8: on a filesystem with directory `/data/runs` and
plain file `/data/file.txt`, setting `/missing` and `/data/file.txt`
fail and keep the configuration, while `/data/runs` succeeds. -/
theorem set_runs_path_spec_witness :
    set_runs_path fsWithDir none none "/missing" =
      (none, Except.error ("Path does not exist: " ++ "/missing")) ∧
    set_runs_path fsWithDir none (some "/old") "/data/file.txt" =
      ((some "/old"), Except.error ("Path is not a directory: " ++ "/data/file.txt")) ∧
    (set_runs_path fsWithDir none (some "/old") "/data/runs").1 = some "/data/runs" := by
  have h1 := set_runs_path_spec fsWithDir none none "/missing"
  have h2 := set_runs_path_spec fsWithDir none (some "/old") "/data/file.txt"
  have h3 := set_runs_path_spec fsWithDir none (some "/old") "/data/runs"
  exact ⟨h1.1 (by decide), h2.2.1 (by decide) (by decide), (h3.2.2 (by decide) (by decide)).1⟩

/-- Claim C9: the three optional filters of the list-runs query are
applied conjunctively, and a character filter naming none of the four
known characters yields a successful empty list (the handler has no
failure path) whenever every loaded run carries a known character
identifier. -/
theorem get_runs_filters (runs : List RunMetrics) (c : Option String) (vo : Option Bool)
    (ma : Option Int) :
    get_runs_handler runs c vo ma = runs.filter (fun r =>
      (match c with
       | some ch => eq_ignore_ascii_case r.character ch
       | none => true) &&
      (!vo.getD false || r.victory) &&
      (match ma with
       | some m => decide (m ≤ r.ascension_level)
       | none => true)) ∧
    (∀ ch : String, c = some ch →
      (∀ k : Character, eq_ignore_ascii_case ch k.dir_name = false) →
      (∀ r ∈ runs, ∃ k : Character, r.character = k.dir_name) →
      get_runs_handler runs c vo ma = []) := by
  constructor
  · simp only [get_runs_handler]
    rcases c with _ | ch <;> rcases ma with _ | m <;> cases hvo : vo.getD false <;>
      simp only [hvo, Bool.not_true, Bool.not_false, Bool.false_or, Bool.true_or,
        Bool.true_and, Bool.and_true, Bool.false_eq_true, eq_self_iff_true, if_true,
        if_false] <;>
      first
        | rfl
        | rw [filter_fuse3]
        | rw [filter_fuse2]
        | simp
  · intro ch hc hunknown hwf
    subst hc
    have hempty : runs.filter (fun r => eq_ignore_ascii_case r.character ch) = [] := by
      rw [List.filter_eq_nil_iff]
      intro r hr
      obtain ⟨k, hk⟩ := hwf r hr
      rw [hk, eqIC_symm, hunknown k]
      simp
    simp only [get_runs_handler]
    rw [hempty]
    rcases ma with _ | m <;> cases hvo : vo.getD false <;> simp [hvo]

/-- Witness for C9: filtering one Ironclad run by the unknown character
name "SNECKO" yields the empty list, not an error. -/
theorem get_runs_filters_witness :
    get_runs_handler [emptyRunMetrics] (some "SNECKO") none none = [] := by
  have h := get_runs_filters [emptyRunMetrics] (some "SNECKO") none none
  refine h.2 "SNECKO" rfl (fun k => by cases k <;> decide) ?_
  intro r hr
  have he : r = emptyRunMetrics := by simpa using hr
  subst he
  exact ⟨Character.Ironclad, by decide⟩

end STS
